import Mathlib

/-!
Verification of the grapher scene model (`grapher.js`, `Vertex.js`, `Edge.js`).

The JavaScript is shallowly embedded: JS numbers are modeled as rationals
(`ℚ`); `Math.sqrt` — which is only observed through comparisons and through
the zero-distance case — is passed in as an explicit function parameter
`sqrtQ`; the canvas text-measurement black box is a parameter
`measure : String → ℚ`.  JS strings are `String` / `List Char`.  A JS
arithmetic result that is not a finite number (NaN / ±∞, produced exactly by
division by zero here) is modeled as `none : Option ℚ`.

Object identity (JS `==` on vertex/edge objects) is modeled by giving every
stored vertex and edge a unique numeric `id`; the state carries a fresh-id
counter.  Mutation of a field through one reference being visible through
every other reference (e.g. dragging a vertex moves every incident edge) is
modeled by keeping the store as the single owner and routing every access
through ids.
-/

/-! ### Constants (grapher.js lines 61-72) -/

def VERTEX_RADIUS : ℚ := 30
def VERTEX_PADDING : ℚ := 10
def SNAP_MARGIN : ℚ := 10
def EDGE_MARGIN : ℚ := 6

def BACKSPACE : ℕ := 8
def SHIFT : ℕ := 16
def CTRL : ℕ := 17
def DELETE : ℕ := 46

/-! ### JS division producing a non-finite value on a zero divisor

`jsDiv a b` is JS `a / b`: `none` models the non-finite result (NaN when
`a = 0`, ±∞ otherwise) that JS produces for `b = 0`. -/

def jsDiv (a b : ℚ) : Option ℚ :=
  if b = 0 then none else some (a / b)

/-! ### Vertex geometry (Vertex.js) -/

/-- Vertex fields (Vertex.js constructor lines 28-36).  `id` models JS object
identity; `radius` is the derived display radius mutated by `draw`. -/
structure Vtx where
  x : ℚ
  y : ℚ
  radius : ℚ
  mouseOffsetX : ℚ
  mouseOffsetY : ℚ
  text : String
  id : ℕ
deriving DecidableEq, Repr, Inhabited

/-- Vertex.prototype.nearestCirclePoint (Vertex.js lines 70-79):
`dist = sqrt(dx*dx + dy*dy)` and each coordinate is
`center + radius * d / dist`, with no guard on `dist = 0`.  A `none`
coordinate is the non-finite value JS computes when `dist = 0`. -/
def nearestCirclePoint (sqrtQ : ℚ → ℚ) (v : Vtx) (x y : ℚ) : Option ℚ × Option ℚ :=
  let dx := x - v.x
  let dy := y - v.y
  let dist := sqrtQ (dx * dx + dy * dy)
  ((jsDiv (v.radius * dx) dist).map (fun q => v.x + q),
   (jsDiv (v.radius * dy) dist).map (fun q => v.y + q))

/-- Vertex.prototype.contains (Vertex.js lines 62-67). -/
def vertexContains (v : Vtx) (x y : ℚ) : Bool :=
  decide ((x - v.x) * (x - v.x) + (y - v.y) * (y - v.y) ≤ v.radius * v.radius)

/-- Radius update performed by Vertex.prototype.draw (Vertex.js lines 40-50)
on the measured width of the displayed (subscripted) label:
`if (width < 2*VERTEX_RADIUS - VERTEX_RADIUS/3) radius = VERTEX_RADIUS else
radius = width/2 + VERTEX_PADDING`. -/
def vertexRadius (width : ℚ) : ℚ :=
  if width < 2 * VERTEX_RADIUS - VERTEX_RADIUS / 3 then VERTEX_RADIUS
  else width / 2 + VERTEX_PADDING

/-- C4: the spec claims the nearest-point-on-circle computation is explicitly
guarded at zero distance and returns the center.  The code has no such guard:
at `towards = center` it computes `0 / 0`, so both coordinates are the JS
non-finite value, not the center.  Concretely, for the radius-30 vertex at
the origin the result is not `(some 0, some 0)`. -/
theorem nearestCirclePoint_center_counterexample :
    nearestCirclePoint (fun _ => 0) ⟨0, 0, 30, 0, 0, "", 0⟩ 0 0 = (none, none) ∧
      ((none, none) : Option ℚ × Option ℚ) ≠ (some 0, some 0) := by
  refine ⟨?_, by simp⟩
  simp [nearestCirclePoint, jsDiv]

/-- C4 (amended): `nearestCirclePoint` performs no guard; whenever the target
point equals the center, the zero direction vector gives distance
`sqrt 0 = 0` and both output coordinates are the non-finite result of a
division by zero (`none`), for every faithful square root
(`sqrtQ 0 = 0`) and every vertex.  No exception is raised: the function is
total. -/
theorem nearestCirclePoint_center_nan (sqrtQ : ℚ → ℚ) (v : Vtx) (h : sqrtQ 0 = 0) :
    nearestCirclePoint sqrtQ v v.x v.y = (none, none) := by
  simp [nearestCirclePoint, jsDiv, h]

/-- Witness for `nearestCirclePoint_center_nan` at a concrete vertex and the
zero square-root function. -/
theorem nearestCirclePoint_center_nan_witness :
    (fun _ => (0 : ℚ)) 0 = 0 ∧
      nearestCirclePoint (fun _ => 0) ⟨1, 2, 30, 0, 0, "v", 5⟩ 1 2 = (none, none) :=
  ⟨rfl, nearestCirclePoint_center_nan (fun _ => 0) ⟨1, 2, 30, 0, 0, "v", 5⟩ rfl⟩

/-- C8: the spec claims the effective radius is `max(30, w/2 + 10)`.  The
code's branch point is `w < 2*30 - 30/3 = 50`, not the crossover `w = 40` of
the max: at measured width 48 the code keeps radius 30 while the claimed
formula gives 34. -/
theorem vertexRadius_counterexample :
    vertexRadius 48 = 30 ∧ max VERTEX_RADIUS (48 / 2 + VERTEX_PADDING) = 34 ∧
      (30 : ℚ) ≠ 34 := by
  refine ⟨?_, ?_, by norm_num⟩
  · rw [vertexRadius, if_pos (by norm_num [VERTEX_RADIUS])]
    rfl
  · rw [max_eq_right (by norm_num [VERTEX_RADIUS, VERTEX_PADDING])]
    norm_num [VERTEX_PADDING]

/-- C8 (amended): outside the gap `40 < w < 50` the drawn radius does equal
`max(VERTEX_RADIUS, w/2 + VERTEX_PADDING)`; inside the gap the code yields
`VERTEX_RADIUS = 30` instead of `w/2 + 10`. -/
theorem vertexRadius_eq_max (w : ℚ) (h : w ≤ 40 ∨ 50 ≤ w) :
    vertexRadius w = max VERTEX_RADIUS (w / 2 + VERTEX_PADDING) := by
  rcases h with h | h
  · have h1 : w < 2 * VERTEX_RADIUS - VERTEX_RADIUS / 3 := by
      rw [VERTEX_RADIUS]; linarith
    have h2 : w / 2 + VERTEX_PADDING ≤ VERTEX_RADIUS := by
      rw [VERTEX_RADIUS, VERTEX_PADDING]; linarith
    rw [vertexRadius, if_pos h1, max_eq_left h2]
  · have h1 : ¬ w < 2 * VERTEX_RADIUS - VERTEX_RADIUS / 3 := by
      rw [VERTEX_RADIUS]; push_neg; linarith
    have h2 : VERTEX_RADIUS ≤ w / 2 + VERTEX_PADDING := by
      rw [VERTEX_RADIUS, VERTEX_PADDING]; linarith
    rw [vertexRadius, if_neg h1, max_eq_right h2]

/-- Witness for `vertexRadius_eq_max` at width 60. -/
theorem vertexRadius_eq_max_witness :
    ((60 : ℚ) ≤ 40 ∨ 50 ≤ (60 : ℚ)) ∧
      vertexRadius 60 = max VERTEX_RADIUS (60 / 2 + VERTEX_PADDING) :=
  ⟨Or.inr (by norm_num), vertexRadius_eq_max 60 (Or.inr (by norm_num))⟩

/-! ### Numeric formatting for emitted markup (grapher.js `fixed`, lines 734-737) -/

def digitChar (j : ℕ) : Char := Char.ofNat (48 + j)

/-- Fueled decimal digit emission (most significant first). -/
def natToDecAux : ℕ → ℕ → List Char
  | 0, _ => []
  | f + 1, n =>
    if n < 10 then [digitChar n]
    else natToDecAux f (n / 10) ++ [digitChar (n % 10)]

/-- Decimal rendering of a natural number, the digit part of JS
number-to-string conversion. -/
def natToDec (n : ℕ) : List Char := natToDecAux (n + 1) n

/-- Left-pad a digit string with '0' to length `d` (fractional digits of
`toFixed` are emitted with exactly `d` places). -/
def padZeros (d : ℕ) (s : List Char) : List Char :=
  List.replicate (d - s.length) '0' ++ s

/-- JS `Number.prototype.toFixed` on a (finite, modestly sized) number: a
sign for negative input, then the magnitude scaled by `10^d` rounded to the
nearest integer (the larger one on ties); with `d ≥ 1` the shape is
`sign ++ integer digits ++ '.' ++ d fractional digits`. -/
def jsToFixed (n : ℚ) (d : ℕ) : List Char :=
  let sign : List Char := if n < 0 then ['-'] else []
  let m : ℕ := (round (|n| * (10 : ℚ) ^ d)).toNat
  if d = 0 then sign ++ natToDec m
  else sign ++ natToDec (m / 10 ^ d) ++ '.' :: padZeros d (natToDec (m % 10 ^ d))

/-- JS `replace(/0+$/, '')`: strip the maximal trailing run of '0'. -/
def stripTrailingZeros (s : List Char) : List Char :=
  (s.reverse.dropWhile (fun c => c = '0')).reverse

/-- JS `replace(/\.$/, '')`: strip one trailing '.'. -/
def stripTrailingDot (s : List Char) : List Char :=
  if s.getLast? = some '.' then s.dropLast else s

/-- fixed (grapher.js lines 734-737):
`number.toFixed(digits).replace(/0+$/, '').replace(/\.$/, '')`. -/
def fixed (n : ℚ) (d : ℕ) : String :=
  ⟨stripTrailingDot (stripTrailingZeros (jsToFixed n d))⟩

/-- Modeled from the claim's words, for comparison with `fixed`: the
fixed-point rendering with only the trailing zeros of the fractional part
stripped, then a trailing decimal point stripped, the integer part (and the
`d = 0` rendering, which has no fractional part) left unchanged. -/
def fixedSpec (n : ℚ) (d : ℕ) : String :=
  let sign : List Char := if n < 0 then ['-'] else []
  let m : ℕ := (round (|n| * (10 : ℚ) ^ d)).toNat
  if d = 0 then ⟨sign ++ natToDec m⟩
  else
    let fr := stripTrailingZeros (padZeros d (natToDec (m % 10 ^ d)))
    if fr = [] then ⟨sign ++ natToDec (m / 10 ^ d)⟩
    else ⟨sign ++ natToDec (m / 10 ^ d) ++ '.' :: fr⟩

theorem digitChar_ne_dot {j : ℕ} (hj : j < 10) : digitChar j ≠ '.' := by
  interval_cases j <;> decide

theorem natToDecAux_mem {f n : ℕ} {c : Char} (h : c ∈ natToDecAux f n) :
    ∃ j, j < 10 ∧ c = digitChar j := by
  induction f generalizing n with
  | zero => simp [natToDecAux] at h
  | succ f ih =>
    rw [natToDecAux] at h
    split at h
    · next hlt => simp only [List.mem_singleton] at h; exact ⟨n, hlt, h⟩
    · rcases List.mem_append.1 h with h | h
      · exact ih h
      · simp only [List.mem_singleton] at h
        exact ⟨n % 10, Nat.mod_lt _ (by norm_num), h⟩

theorem natToDec_ne_dot {n : ℕ} {c : Char} (h : c ∈ natToDec n) : c ≠ '.' := by
  obtain ⟨j, hj, rfl⟩ := natToDecAux_mem h
  exact digitChar_ne_dot hj

theorem padZeros_ne_dot {d n : ℕ} {c : Char} (h : c ∈ padZeros d (natToDec n)) :
    c ≠ '.' := by
  rcases List.mem_append.1 h with h | h
  · rw [List.eq_of_mem_replicate h]; decide
  · exact natToDec_ne_dot h

theorem stripTrailingZeros_append_dot (pre fr : List Char) :
    stripTrailingZeros (pre ++ '.' :: fr) =
      if fr.all (fun c => c = '0') then pre ++ ['.']
      else pre ++ '.' :: stripTrailingZeros fr := by
  unfold stripTrailingZeros
  rw [show (pre ++ '.' :: fr).reverse = fr.reverse ++ '.' :: pre.reverse by simp,
    List.dropWhile_append]
  by_cases hall : fr.all (fun c => c = '0')
  · have hnil : fr.reverse.dropWhile (fun c => c = '0') = [] := by
      rw [List.dropWhile_eq_nil_iff]
      intro x hx
      exact (List.all_eq_true.1 hall) x (List.mem_reverse.1 hx)
    rw [if_pos hall, hnil]
    simp [List.dropWhile_cons]
  · have hne : ¬ fr.reverse.dropWhile (fun c => c = '0') = [] := by
      rw [List.dropWhile_eq_nil_iff]
      intro hcon
      exact hall (List.all_eq_true.2 (fun x hx => hcon x (List.mem_reverse.2 hx)))
    rw [if_neg hall, if_neg (by simpa [List.isEmpty_iff] using hne)]
    simp

theorem stripTrailingZeros_eq_nil_of_all {l : List Char}
    (h : l.all (fun c => c = '0')) : stripTrailingZeros l = [] := by
  unfold stripTrailingZeros
  rw [List.dropWhile_eq_nil_iff.2 (fun x hx => (List.all_eq_true.1 h) x (List.mem_reverse.1 hx))]
  rfl

theorem stripTrailingZeros_ne_nil_of_not_all {l : List Char}
    (h : ¬ l.all (fun c => c = '0')) : stripTrailingZeros l ≠ [] := by
  unfold stripTrailingZeros
  intro hcon
  rw [List.reverse_eq_nil_iff, List.dropWhile_eq_nil_iff] at hcon
  exact h (List.all_eq_true.2 (fun x hx => hcon x (List.mem_reverse.2 hx)))

theorem mem_stripTrailingZeros {l : List Char} {c : Char}
    (h : c ∈ stripTrailingZeros l) : c ∈ l := by
  unfold stripTrailingZeros at h
  rw [List.mem_reverse] at h
  exact List.mem_reverse.1 ((List.dropWhile_sublist _).subset h)

theorem stripTrailingDot_concat_dot (pre : List Char) :
    stripTrailingDot (pre ++ ['.']) = pre := by
  simp [stripTrailingDot]

theorem stripTrailingDot_no_dot (pre fr : List Char) (hne : fr ≠ [])
    (hdot : ∀ c ∈ fr, c ≠ '.') :
    stripTrailingDot (pre ++ '.' :: fr) = pre ++ '.' :: fr := by
  rw [stripTrailingDot, if_neg]
  rw [show pre ++ '.' :: fr = (pre ++ ['.']) ++ fr by simp,
    List.getLast?_append_of_ne_nil _ hne]
  intro hcon
  rcases List.getLast?_eq_some_iff.1 hcon with ⟨l', hl'⟩
  exact hdot '.' (hl' ▸ List.mem_concat_self l' '.') rfl

/-- C5 (amended): for every rational `n` and every digit count `d ≥ 1` (so
that the fixed-point rendering contains a decimal point), `fixed` equals the
claim's description `fixedSpec`: only the trailing zeros of the fractional
part are stripped (the '.' blocks the regex from reaching the integer part),
then a bare trailing decimal point is dropped; the sign and integer digits
are unchanged.  At `d = 0` the rendering has no decimal point and the claim
fails (see the counterexample). -/
theorem fixed_eq_fixedSpec (n : ℚ) (d : ℕ) (hd : 1 ≤ d) :
    fixed n d = fixedSpec n d := by
  have hd0 : d ≠ 0 := by omega
  rw [fixed, fixedSpec, jsToFixed]
  simp only [if_neg hd0]
  rw [show (if n < 0 then ['-'] else []) ++
        natToDec ((round (|n| * (10 : ℚ) ^ d)).toNat / 10 ^ d) ++
        '.' :: padZeros d (natToDec ((round (|n| * (10 : ℚ) ^ d)).toNat % 10 ^ d)) =
      ((if n < 0 then ['-'] else []) ++
        natToDec ((round (|n| * (10 : ℚ) ^ d)).toNat / 10 ^ d)) ++
      '.' :: padZeros d (natToDec ((round (|n| * (10 : ℚ) ^ d)).toNat % 10 ^ d)) by
    simp, stripTrailingZeros_append_dot]
  by_cases hall :
      (padZeros d (natToDec ((round (|n| * (10 : ℚ) ^ d)).toNat % 10 ^ d))).all
        (fun c => c = '0')
  · rw [if_pos hall, stripTrailingDot_concat_dot,
      if_pos (stripTrailingZeros_eq_nil_of_all hall)]
  · rw [if_neg hall,
      stripTrailingDot_no_dot _ _ (stripTrailingZeros_ne_nil_of_not_all hall)
        (fun c hc => padZeros_ne_dot (mem_stripTrailingZeros hc)),
      if_neg (stripTrailingZeros_ne_nil_of_not_all hall)]

/-- Witness for `fixed_eq_fixedSpec` at `n = 5/2`, `d = 2`. -/
theorem fixed_eq_fixedSpec_witness :
    1 ≤ 2 ∧ fixed (5 / 2) 2 = fixedSpec (5 / 2) 2 :=
  ⟨by norm_num, fixed_eq_fixedSpec (5 / 2) 2 (by norm_num)⟩

/-- C5 counterexample: the claim quantifies over every digit count, but at
`d = 0` the rendering of 100 has no decimal point and `replace(/0+$/, '')`
eats the trailing zeros of the integer part: the code yields "1" where the
claim's description yields "100". -/
theorem fixed_counterexample :
    fixed 100 0 = "1" ∧ fixedSpec 100 0 = "100" ∧ ("1" : String) ≠ "100" := by
  have hm : (round (|(100 : ℚ)| * (10 : ℚ) ^ (0 : ℕ))).toNat = 100 := by
    norm_num [round_eq]
    decide
  have hs : ¬ ((100 : ℚ) < 0) := by norm_num
  refine ⟨?_, ?_, by decide⟩
  · rw [fixed, jsToFixed]
    simp only [hm, if_neg hs, if_pos rfl]
    decide
  · rw [fixedSpec]
    simp only [hm, if_neg hs]
    decide

/-! ### Subscript label formatters (grapher.js lines 750-771 and 686-705)

The regex `/_[0-9]+_/g` is embedded as an explicit scanner: `matchSubAt`
matches the pattern at the head of a character list (greedy digit run
followed by an underscore), `scanMatches` is the leftmost non-overlapping
global match pass, and `replaceAll` is JS `String.replace` with a global
literal pattern (the code builds `new RegExp` from matched strings, which
contain only underscores and digits, hence match literally). -/

def isDigitCh (c : Char) : Bool := decide ('0' ≤ c ∧ c ≤ '9')

/-- Match `_[0-9]+_` at the head of the list, returning the matched string
and the remainder. -/
def matchSubAt : List Char → Option (List Char × List Char)
  | '_' :: rest =>
    let ds := rest.takeWhile isDigitCh
    if ds.isEmpty then none
    else
      match rest.drop ds.length with
      | '_' :: tail => some ('_' :: (ds ++ ['_']), tail)
      | _ => none
  | _ => none

/-- Leftmost non-overlapping matches of `_[0-9]+_` (JS `text.match(re, 'g')`),
fueled by the input length (each step consumes at least one character). -/
def scanMatchesAux : ℕ → List Char → List (List Char)
  | 0, _ => []
  | _ + 1, [] => []
  | f + 1, c :: rest =>
    match matchSubAt (c :: rest) with
    | some (pat, tail) => pat :: scanMatchesAux f tail
    | none => scanMatchesAux f rest

def scanMatches (s : List Char) : List (List Char) := scanMatchesAux s.length s

/-- JS `String.replace` with a global literal pattern: replace each leftmost
non-overlapping occurrence of `pat`, continuing after the replacement. -/
def replaceAllAux (pat rep : List Char) : ℕ → List Char → List Char
  | 0, s => s
  | _ + 1, [] => []
  | f + 1, c :: rest =>
    if pat ≠ [] ∧ pat.isPrefixOf (c :: rest) then
      rep ++ replaceAllAux pat rep f ((c :: rest).drop pat.length)
    else c :: replaceAllAux pat rep f rest

def replaceAll (s pat rep : List Char) : List Char := replaceAllAux pat rep s.length s

/-- makeSubscripts (grapher.js lines 750-771): collect the matches of
`/_[0-9]+_/g`; for each match, strip its underscores, replace each digit `j`
by the Unicode subscript `U+2080 + j`, and globally replace the matched
string in the (current) text by that replacement. -/
def makeSubscripts (text : String) : String :=
  let subscripts := scanMatches text.toList
  ⟨subscripts.foldl (fun t pat =>
      let rep0 := replaceAll pat ['_'] []
      let rep := (List.range 10).foldl
        (fun r j => replaceAll r [digitChar j] [Char.ofNat (8320 + j)]) rep0
      replaceAll t pat rep) text.toList⟩

/-- LaTeXDrawer.makeLaTeXSubscripts (grapher.js lines 686-705): same match
pass, replacement is underscore, open brace, the digits, close brace
(`Char.ofNat 123` / `125` are the braces). -/
def makeLaTeXSubscripts (text : String) : String :=
  let subscripts := scanMatches text.toList
  ⟨subscripts.foldl (fun t pat =>
      let rep := '_' :: Char.ofNat 123 :: (replaceAll pat ['_'] [] ++ [Char.ofNat 125])
      replaceAll t pat rep) text.toList⟩

/-- Modeled from the claim's words, for comparison: a single left-to-right
pass that rewrites each non-overlapping occurrence of
underscore-digits-underscore via `f` and copies every other character
unchanged. -/
def applySubscriptsSpecAux (f : List Char → List Char) : ℕ → List Char → List Char
  | 0, s => s
  | _ + 1, [] => []
  | fuel + 1, c :: rest =>
    match matchSubAt (c :: rest) with
    | some (pat, tail) => f pat ++ applySubscriptsSpecAux f fuel tail
    | none => c :: applySubscriptsSpecAux f fuel rest

/-- Claim's on-screen formatter: each matched digit run becomes Unicode
subscript code points `U+2080 + digit`. -/
def applySubscriptsSpecScreen (text : String) : String :=
  ⟨applySubscriptsSpecAux
    (fun pat => (pat.filter isDigitCh).map (fun c => Char.ofNat (8320 + (c.toNat - 48))))
    text.toList.length text.toList⟩

/-- Claim's markup formatter: each matched `_digits_` becomes
underscore-brace-digits-brace. -/
def applySubscriptsSpecLatex (text : String) : String :=
  ⟨applySubscriptsSpecAux
    (fun pat => '_' :: Char.ofNat 123 :: (pat.filter isDigitCh ++ [Char.ofNat 125]))
    text.toList.length text.toList⟩

/-- C6 counterexample: on `"_1_a_2_1_"` the leftmost non-overlapping matches
are `_1_` and `_2_`, and the trailing `1_` is non-matching text; but the
code replaces each matched string globally in sequence, so the second
occurrence of `_1_` (which overlapped the `_2_` match) is rewritten too:
both formatters change non-matching text, diverging from the claim's
single-pass description. -/
theorem makeSubscripts_counterexample :
    makeSubscripts "_1_a_2_1_" = "₁a_2₁" ∧
      applySubscriptsSpecScreen "_1_a_2_1_" = "₁a₂1_" ∧
      makeSubscripts "_1_a_2_1_" ≠ applySubscriptsSpecScreen "_1_a_2_1_" ∧
      makeLaTeXSubscripts "_1_a_2_1_" = "_{1}a_{2}{1}" ∧
      applySubscriptsSpecLatex "_1_a_2_1_" = "_{1}a_{2}1_" ∧
      makeLaTeXSubscripts "_1_a_2_1_" ≠ applySubscriptsSpecLatex "_1_a_2_1_" := by
  decide

/-- C6 (amended): the formatters rewrite by sequential global substitution
of each matched pattern string, which agrees with the claim's single-pass
replacement whenever no matched pattern string re-occurs outside its
matches; in particular the claim's example `"x_12_y"` maps to
`x`-subscript-1-subscript-2-`y` on screen and to `x_{12}y` in markup, a
string with several independent runs is handled correctly by both
formatters, and strings without full `_digits_` runs are left untouched. -/
theorem makeSubscripts_examples :
    makeSubscripts "x_12_y" = "x₁₂y" ∧
      makeLaTeXSubscripts "x_12_y" = "x_{12}y" ∧
      applySubscriptsSpecScreen "x_12_y" = "x₁₂y" ∧
      applySubscriptsSpecLatex "x_12_y" = "x_{12}y" ∧
      makeSubscripts "a_1_b_23_c" = "a₁b₂₃c" ∧
      makeLaTeXSubscripts "a_1_b_23_c" = "a_{1}b_{23}c" ∧
      applySubscriptsSpecScreen "a_1_b_23_c" = "a₁b₂₃c" ∧
      applySubscriptsSpecLatex "a_1_b_23_c" = "a_{1}b_{23}c" ∧
      makeSubscripts "no subs _x_ _12" = "no subs _x_ _12" ∧
      makeLaTeXSubscripts "no subs _x_ _12" = "no subs _x_ _12" := by
  decide

/-! ### Snap alignment (grapher.js `snap`, lines 356-366)

The dragged vertex is an element of the store, so the loop body reads and
writes through the store (index `k`): the iteration that reaches the dragged
vertex itself compares it against its own current value (difference zero)
and writes the value back, a no-op.  Crucially, later iterations compare
against the coordinate as already snapped by earlier iterations. -/

/-- One iteration of the snap loop: compare the dragged vertex (index `k`)
with the vertex at index `i`, snapping x then y. -/
def snapStep (vs : List Vtx) (k i : ℕ) : List Vtx :=
  let v := vs.getD k default
  let u := vs.getD i default
  let vs1 := if |v.x - u.x| < SNAP_MARGIN then vs.set k {v with x := u.x} else vs
  let v1 := vs1.getD k default
  let u1 := vs1.getD i default
  if |v1.y - u1.y| < SNAP_MARGIN then vs1.set k {v1 with y := u1.y} else vs1

/-- snap (grapher.js lines 356-366): iterate the comparison over every
vertex of the store in order. -/
def snap (vs : List Vtx) (k : ℕ) : List Vtx :=
  (List.range vs.length).foldl (fun vs i => snapStep vs k i) vs

/-- C7 counterexample: vertices at x = 100 and x = 108 and a dragged vertex
at x = 95 (tolerance 10).  The claim allows the dragged x only to stay 95 or
to be set equal to a vertex coordinate differing from 95 by strictly less
than 10; the code instead snaps 95 → 100 (within tolerance) and then chains
100 → 108, ending at 108, which is 13 away from the original position. -/
theorem snap_counterexample :
    ((snap [⟨100, 200, 30, 0, 0, "", 0⟩, ⟨108, 300, 30, 0, 0, "", 1⟩,
        ⟨95, 0, 30, 0, 0, "", 2⟩] 2).getD 2 default).x = 108 ∧
      ¬ ((108 : ℚ) = 95 ∨
         ((108 : ℚ) = 100 ∧ |(95 : ℚ) - 100| < SNAP_MARGIN) ∨
         ((108 : ℚ) = 108 ∧ |(95 : ℚ) - 108| < SNAP_MARGIN)) := by
  constructor
  · norm_num [snap, snapStep, SNAP_MARGIN, List.getD,
      show List.range 3 = [0, 1, 2] from rfl]
  · norm_num [SNAP_MARGIN]

/-- C7 (amended): the snap comparisons run sequentially in store order
against the current (possibly already snapped) coordinate, so chains of
nearby vertices can carry the dragged vertex beyond the tolerance; with a
single other vertex the claim holds as stated: each axis is snapped to
exact equality when the coordinates differ by strictly less than
`SNAP_MARGIN` and is left unchanged otherwise — in particular vertices at
(100,100)/(104,250) with tolerance 10 give final (100, 250). -/
theorem snap_single_other (u v : Vtx) :
    snap [u, v] 1 = [u, {v with
      x := if |v.x - u.x| < SNAP_MARGIN then u.x else v.x,
      y := if |v.y - u.y| < SNAP_MARGIN then u.y else v.y}] := by
  have h0 : (0 : ℚ) < SNAP_MARGIN := by norm_num [SNAP_MARGIN]
  by_cases hx : |v.x - u.x| < SNAP_MARGIN <;> by_cases hy : |v.y - u.y| < SNAP_MARGIN <;>
    simp [snap, snapStep, List.getD, show List.range 2 = [0, 1] from rfl, hx, hy,
      sub_self, abs_zero, h0, List.set]

/-! ### The interaction controller (grapher.js event handlers)

The scene store and the handler-visible globals (grapher.js lines 78-90)
form `EditorState`.  `sourceMouse` is assigned in the source but never read,
so it is omitted.  Stored edges carry a `directed` flag distinguishing
`Edge` from `DirEdge` (Edge.js), plus the `id` modeling object identity.
The transient `currentEdge` is one of the four constructor shapes
`TempEdge` / `TempDirEdge` / `Edge` / `DirEdge` built during a gesture.
Stroking/painting calls have no scene-state effect; the state effect of
`draw()` is the radius recomputation every `Vertex.prototype.draw` performs,
captured by `drawPass`. -/

structure Edg where
  v1 : ℕ
  v2 : ℕ
  directed : Bool
  text : String
  id : ℕ
deriving DecidableEq, Repr, Inhabited

inductive ObjRef
  | vtx (id : ℕ)
  | edg (id : ℕ)
deriving DecidableEq, Repr

structure Pt where
  x : ℚ
  y : ℚ
deriving DecidableEq, Repr

inductive CurEdge
  | tempEdge (src : ℕ) (dest : Pt)
  | tempDirEdge (src : ℕ) (dest : Pt)
  | edge (v1 v2 : ℕ)
  | dirEdge (v1 v2 : ℕ)
deriving DecidableEq, Repr

/-- Kind of a pending or candidate edge: `true` for the directed shapes
(TempDirEdge / DirEdge). -/
def curEdgeDirected : CurEdge → Bool
  | .tempEdge _ _ => false
  | .edge _ _ => false
  | .tempDirEdge _ _ => true
  | .dirEdge _ _ => true

structure EditorState where
  vertices : List Vtx
  edges : List Edg
  selectedObject : Option ObjRef
  currentEdge : Option CurEdge
  movingObject : Bool
  lastKey : Option ℕ
  shift : Bool
  ctrl : Bool
  mouseDown : Bool
  nextId : ℕ
deriving Repr

/-- Dereference a vertex id (JS holds direct object references; ids are
unique, so lookup by id is the same access). -/
def lookupVtx (vs : List Vtx) (i : ℕ) : Vtx := (vs.find? (fun v => v.id = i)).getD default

/-- Edge.prototype.contains / DirEdge.prototype.contains (Edge.js lines
56-64 and 117-125).  Rational division by zero yields 0 here, making the
condition false for a zero-length edge, exactly as the JS NaN comparisons
are false. -/
def edgeContains (sqrtQ : ℚ → ℚ) (vs : List Vtx) (e : Edg) (x y : ℚ) : Bool :=
  let a := lookupVtx vs e.v1
  let b := lookupVtx vs e.v2
  let dx := b.x - a.x
  let dy := b.y - a.y
  let length := sqrtQ (dx * dx + dy * dy)
  let percent := (dx * (x - a.x) + dy * (y - a.y)) / (length * length)
  let dist := (dx * (y - a.y) - dy * (x - a.x)) / length
  decide (0 < percent ∧ percent < 1 ∧ |dist| < EDGE_MARGIN)

/-- selectObject (grapher.js lines 336-353): first vertex containing the
point, else first containing edge, else none (JS `undefined`). -/
def selectObject (sqrtQ : ℚ → ℚ) (s : EditorState) (x y : ℚ) : Option ObjRef :=
  match s.vertices.find? (fun v => vertexContains v x y) with
  | some v => some (.vtx v.id)
  | none => (s.edges.find? (fun e => edgeContains sqrtQ s.vertices e x y)).map (fun e => .edg e.id)

/-- Scene-state effect of draw()/drawWith() (grapher.js lines 369-400):
every vertex radius is recomputed by `Vertex.prototype.draw` from the
measured width of its displayed label; painting has no state effect. -/
def drawPass (measure : String → ℚ) (vs : List Vtx) : List Vtx :=
  vs.map (fun v => {v with radius := vertexRadius (measure (makeSubscripts v.text))})

/-- Mutate the vertex with id `i` in place in the store. -/
def updVtx (vs : List Vtx) (i : ℕ) (f : Vtx → Vtx) : List Vtx :=
  vs.map (fun v => if v.id = i then f v else v)

/-- The `for (i...) if (p) arr.splice(i--, 1)` removal loop (grapher.js
lines 263-277): every element is visited exactly once and removed when the
predicate holds. -/
def spliceFilter {α : Type} (p : α → Bool) : List α → List α
  | [] => []
  | a :: rest => if p a then spliceFilter p rest else a :: spliceFilter p rest

/-- containsEdge (grapher.js lines 449-459) on the endpoints of the edge
about to be committed: some stored edge joins the same two vertices in
either order (the edge kind is not inspected). -/
def containsEdge (edges : List Edg) (a b : ℕ) : Bool :=
  edges.any (fun f => (a = f.v1 && b = f.v2) || (b = f.v1 && a = f.v2))

/-- canvas.onmousedown (grapher.js lines 104-137). -/
def onmousedown (sqrtQ : ℚ → ℚ) (s : EditorState) (x y : ℚ) : EditorState :=
  let sel := selectObject sqrtQ s x y
  let s1 := {s with selectedObject := sel}
  let s2 :=
    match sel with
    | some (.vtx i) =>
      if s1.shift = true ∧ s1.currentEdge = none then
        {s1 with currentEdge := some (.tempEdge i ⟨x, y⟩)}
      else if s1.ctrl = true ∧ s1.currentEdge = none then
        {s1 with currentEdge := some (.tempDirEdge i ⟨x, y⟩)}
      else
        {s1 with
          movingObject := true
          vertices := updVtx s1.vertices i
            (fun v => {v with mouseOffsetX := v.x - x, mouseOffsetY := v.y - y})}
    | _ => s1
  {s2 with mouseDown := true}

/-- First half of canvas.onmousemove (grapher.js lines 171-208): while an
edge is being created, rebuild it from `lastKey` — a mouse position away
from any vertex gives the temp (mouse-following) shape, a position over a
vertex gives the committed-candidate shape between source and that
vertex. -/
def mousemoveEdgePhase (sqrtQ : ℚ → ℚ) (s : EditorState) (x y : ℚ) : EditorState :=
  if s.currentEdge ≠ none then
    let destVertex : Option ℕ :=
      match selectObject sqrtQ s x y with
      | some (.vtx i) => some i
      | _ => none
    if s.selectedObject ≠ none then
      match s.selectedObject with
      | some (.vtx srcId) =>
        match destVertex with
        | none =>
          if s.lastKey = some SHIFT then {s with currentEdge := some (.tempEdge srcId ⟨x, y⟩)}
          else if s.lastKey = some CTRL then {s with currentEdge := some (.tempDirEdge srcId ⟨x, y⟩)}
          else s
        | some d =>
          if s.lastKey = some SHIFT then {s with currentEdge := some (.edge srcId d)}
          else if s.lastKey = some CTRL then {s with currentEdge := some (.dirEdge srcId d)}
          else s
      | _ => s
    else s
  else s

/-- Second half of canvas.onmousemove (grapher.js lines 210-214): while
`movingObject`, `setAnchorPoint` places the selected vertex at the mouse
position plus the recorded grab offset, then `snap` aligns it against the
store.  (In source-reachable states `movingObject` implies the selection is
a vertex, set at mousedown.) -/
def mousemoveMovePhase (s : EditorState) (x y : ℚ) : EditorState :=
  if s.movingObject = true then
    match s.selectedObject with
    | some (.vtx i) =>
      let vs := updVtx s.vertices i
        (fun v => {v with x := x + v.mouseOffsetX, y := y + v.mouseOffsetY})
      {s with vertices := snap vs (vs.findIdx (fun v => v.id = i))}
    | _ => s
  else s

/-- canvas.onmousemove (grapher.js lines 166-216): edge phase, move
phase, then draw(). -/
def onmousemove (sqrtQ : ℚ → ℚ) (measure : String → ℚ) (s : EditorState) (x y : ℚ) :
    EditorState :=
  let s1 := mousemoveEdgePhase sqrtQ s x y
  let s2 := mousemoveMovePhase s1 x y
  {s2 with vertices := drawPass measure s2.vertices}

/-- canvas.onmouseup (grapher.js lines 140-163): a still-temp edge is
discarded; a resolved Edge/DirEdge is pushed unless `containsEdge` finds an
edge between the same unordered pair; then `currentEdge` and `lastKey` are
reset.  (The fresh id models the object allocated at the mousemove that
built the candidate; nothing else can observe it before this push.) -/
def onmouseup (s : EditorState) : EditorState :=
  let s1 := {s with movingObject := false}
  let s2 :=
    match s1.currentEdge with
    | some (.tempEdge _ _) => {s1 with currentEdge := none}
    | some (.tempDirEdge _ _) => {s1 with currentEdge := none}
    | some (.edge a b) =>
      let s' := if containsEdge s1.edges a b then s1
        else {s1 with
          edges := s1.edges ++ [(⟨a, b, false, "", s1.nextId⟩ : Edg)]
          nextId := s1.nextId + 1}
      {s' with
        currentEdge := none
        lastKey := none}
    | some (.dirEdge a b) =>
      let s' := if containsEdge s1.edges a b then s1
        else {s1 with
          edges := s1.edges ++ [(⟨a, b, true, "", s1.nextId⟩ : Edg)]
          nextId := s1.nextId + 1}
      {s' with
        currentEdge := none
        lastKey := none}
    | none => s1
  {s2 with mouseDown := false}

/-- JS `text.substr(0, text.length - 1)`: all but the last character; on
the empty string the negative length yields the empty string. -/
def backspaceText (t : String) : String := ⟨t.toList.take (t.toList.length - 1)⟩

/-- document.onkeydown (grapher.js lines 234-289).  `lastKey` is only
updated while the mouse is not pressed (lines 239-242); Backspace edits the
selected label; Delete runs the two splice loops and clears the
selection. -/
def onkeydown (measure : String → ℚ) (s : EditorState) (key : ℕ) : EditorState :=
  let s0 := if ¬ s.mouseDown then {s with lastKey := some key} else s
  if key = SHIFT then {s0 with shift := true}
  else if key = CTRL then {s0 with ctrl := true}
  else if s0.selectedObject ≠ none then
    if key = BACKSPACE then
      let s1 : EditorState :=
        match s0.selectedObject with
        | some (.vtx i) =>
          {s0 with vertices := updVtx s0.vertices i (fun v => {v with text := backspaceText v.text})}
        | some (.edg i) =>
          {s0 with edges := s0.edges.map (fun e => if e.id = i then {e with text := backspaceText e.text} else e)}
        | none => s0
      {s1 with vertices := drawPass measure s1.vertices}
    else if key = DELETE then
      let s1 : EditorState :=
        match s0.selectedObject with
        | some r =>
          {s0 with
            vertices := spliceFilter (fun v => r = ObjRef.vtx v.id) s0.vertices
            edges := spliceFilter (fun e => r = ObjRef.edg e.id || r = ObjRef.vtx e.v1 || r = ObjRef.vtx e.v2) s0.edges}
        | none => s0
      {s1 with
        selectedObject := none
        vertices := drawPass measure s1.vertices}
    else s0
  else s0

/-- document.onkeyup (grapher.js lines 292-304). -/
def onkeyup (s : EditorState) (key : ℕ) : EditorState :=
  if key = SHIFT then {s with shift := false}
  else if key = CTRL then {s with ctrl := false}
  else s

/-! ### C1: uniqueness of an edge between an unordered vertex pair -/

/-- The comparison `containsEdge` makes against each stored edge
(grapher.js line 453). -/
def matchesPair (a b : ℕ) (f : Edg) : Bool :=
  (a = f.v1 && b = f.v2) || (b = f.v1 && a = f.v2)

/-- Number of stored edges joining the unordered pair `{a, b}`. -/
def pairCount (a b : ℕ) (edges : List Edg) : ℕ := edges.countP (matchesPair a b)

theorem containsEdge_eq_any (edges : List Edg) (a b : ℕ) :
    containsEdge edges a b = edges.any (matchesPair a b) := rfl

theorem matchesPair_symm (a b : ℕ) : matchesPair a b = matchesPair b a := by
  funext f
  simp [matchesPair, Bool.or_comm]

theorem pairCount_eq_zero_of_not_contains {edges : List Edg} {a b : ℕ}
    (h : containsEdge edges a b = false) : pairCount a b edges = 0 := by
  rw [pairCount, List.countP_eq_zero]
  rw [containsEdge_eq_any, List.any_eq_false] at h
  exact h

theorem not_contains_of_pairCount_eq_zero {edges : List Edg} {a b : ℕ}
    (h : pairCount a b edges = 0) : containsEdge edges a b = false := by
  rw [pairCount, List.countP_eq_zero] at h
  rw [containsEdge_eq_any, List.any_eq_false]
  exact h

theorem pairCount_append_singleton (a b : ℕ) (edges : List Edg) (e : Edg) :
    pairCount a b (edges ++ [e]) =
      pairCount a b edges + (if matchesPair a b e then 1 else 0) := by
  simp [pairCount, List.countP_append, List.countP_cons]

theorem matchesPair_eq_of_matches {c d a b : ℕ} {dir : Bool} {t : String} {n : ℕ}
    (h : matchesPair c d ⟨a, b, dir, t, n⟩ = true) :
    matchesPair c d = matchesPair a b := by
  simp only [matchesPair, Bool.or_eq_true, Bool.and_eq_true, decide_eq_true_eq] at h
  rcases h with ⟨h1, h2⟩ | ⟨h1, h2⟩
  · rw [h1, h2]
  · rw [h1, h2]
    exact matchesPair_symm b a

theorem onmouseup_edges_commit (s : EditorState) (a b : ℕ)
    (hcur : s.currentEdge = some (.edge a b) ∨ s.currentEdge = some (.dirEdge a b)) :
    ∃ dir, (onmouseup s).edges =
      if containsEdge s.edges a b then s.edges
      else s.edges ++ [⟨a, b, dir, "", s.nextId⟩] := by
  rcases hcur with h | h
  · refine ⟨false, ?_⟩
    simp only [onmouseup, h]
    split <;> rfl
  · refine ⟨true, ?_⟩
    simp only [onmouseup, h]
    split <;> rfl

/-- C1: committing a connect gesture (mouse release with a resolved
undirected or directed candidate between `a` and `b`) keeps the existing
edge and is a no-op on the edge list when an edge between `{a, b}` (in
either order) already exists; it preserves the at-most-one-edge-per-pair
invariant of the store; and committing `a,b` into a store with no edge
between the pair and then attempting the reversed commit `b,a` leaves
exactly one edge between the pair. -/
theorem connect_commit_unique (s : EditorState) (a b : ℕ)
    (hcur : s.currentEdge = some (.edge a b) ∨ s.currentEdge = some (.dirEdge a b)) :
    (containsEdge s.edges a b = true → (onmouseup s).edges = s.edges) ∧
    ((∀ c d, pairCount c d s.edges ≤ 1) →
      ∀ c d, pairCount c d (onmouseup s).edges ≤ 1) ∧
    (pairCount a b s.edges = 0 →
      pairCount a b (onmouseup {onmouseup s with currentEdge := some (.edge b a)}).edges = 1) := by
  obtain ⟨dir, hed⟩ := onmouseup_edges_commit s a b hcur
  refine ⟨fun hc => by rw [hed, if_pos hc], fun hinv c d => ?_, fun hz => ?_⟩
  · rw [hed]
    by_cases hc : containsEdge s.edges a b
    · rw [if_pos hc]; exact hinv c d
    · rw [if_neg hc, pairCount_append_singleton]
      by_cases hm : matchesPair c d ⟨a, b, dir, "", s.nextId⟩ = true
      · rw [if_pos hm]
        have : pairCount c d s.edges = 0 := by
          rw [pairCount, matchesPair_eq_of_matches hm, ← pairCount]
          exact pairCount_eq_zero_of_not_contains (by simpa using hc)
        omega
      · rw [if_neg hm]
        simpa using hinv c d
  · have hc : containsEdge s.edges a b = false := not_contains_of_pairCount_eq_zero hz
    have hed1 : (onmouseup s).edges = s.edges ++ [⟨a, b, dir, "", s.nextId⟩] := by
      rw [hed, if_neg (by simp [hc])]
    obtain ⟨dir2, hed2⟩ := onmouseup_edges_commit
      {onmouseup s with currentEdge := some (.edge b a)} b a (Or.inl rfl)
    have hc2 : containsEdge ({onmouseup s with currentEdge := some (.edge b a)}).edges b a = true := by
      simp only [hed1]
      rw [containsEdge_eq_any, List.any_eq_true]
      exact ⟨⟨a, b, dir, "", s.nextId⟩, by simp, by simp [matchesPair]⟩
    rw [hed2, if_pos hc2]
    simp only [hed1]
    rw [pairCount_append_singleton, pairCount_eq_zero_of_not_contains hc]
    simp [matchesPair]

/-! ### C2: deleting a selected vertex cascades to exactly its incident
edges -/

theorem spliceFilter_eq_filter {α : Type} (p : α → Bool) (l : List α) :
    spliceFilter p l = l.filter (fun a => ! p a) := by
  induction l with
  | nil => rfl
  | cons a rest ih => by_cases h : p a <;> simp [spliceFilter, h, ih]

/-- C2: with a vertex `V` selected, the Delete key removes exactly `V`
from the vertex store, removes exactly the edges `e` with `e.v1 = V` or
`e.v2 = V` from the edge store, clears the selection, and otherwise only
performs the redraw (`drawPass` radius recomputation, the derived state
every redraw rewrites) and the `lastKey` bookkeeping. -/
theorem delete_selected_vertex (measure : String → ℚ) (s : EditorState) (V : ℕ)
    (hsel : s.selectedObject = some (.vtx V)) :
    onkeydown measure s DELETE = {s with
      lastKey := if s.mouseDown then s.lastKey else some DELETE
      vertices := drawPass measure (s.vertices.filter (fun v => ! decide (V = v.id)))
      edges := s.edges.filter (fun e => ! (decide (V = e.v1) || decide (V = e.v2)))
      selectedObject := none} := by
  by_cases hmd : s.mouseDown <;>
    simp [onkeydown, hsel, hmd, SHIFT, CTRL, BACKSPACE, DELETE, spliceFilter_eq_filter]

/-! ### C10: Backspace on the selected label -/

/-- `substr(0, length - 1)` removes exactly the final character of a
non-empty string. -/
theorem backspaceText_concat (l : List Char) (c : Char) :
    backspaceText ⟨l ++ [c]⟩ = ⟨l⟩ := by
  show String.mk (((l ++ [c]).take ((l ++ [c]).length - 1))) = ⟨l⟩
  rw [show (l ++ [c]).length - 1 = l.length by simp, List.take_left]

/-- C10: with any entity selected, Backspace replaces the selected
object's label by the label minus its last character and changes nothing
else (beyond the redraw's derived radius recomputation and `lastKey`
bookkeeping); on the empty label the edit is the safe no-op `"" ↦ ""`
(JS `substr(0, -1)`), and on a non-empty label exactly the last character
is removed.  The handler is total: no error is raised. -/
theorem backspace_trims_label (measure : String → ℚ) (s : EditorState) (r : ObjRef)
    (hsel : s.selectedObject = some r) :
    onkeydown measure s BACKSPACE = {s with
      lastKey := if s.mouseDown then s.lastKey else some BACKSPACE
      vertices := drawPass measure (s.vertices.map (fun v =>
        if r = ObjRef.vtx v.id then {v with text := backspaceText v.text} else v))
      edges := s.edges.map (fun e =>
        if r = ObjRef.edg e.id then {e with text := backspaceText e.text} else e)} ∧
    backspaceText "" = "" ∧
    (∀ (l : List Char) (c : Char), backspaceText ⟨l ++ [c]⟩ = ⟨l⟩) := by
  refine ⟨?_, rfl, backspaceText_concat⟩
  rcases r with i | i <;> by_cases hmd : s.mouseDown <;>
    simp [onkeydown, hsel, hmd, SHIFT, CTRL, BACKSPACE, DELETE, updVtx, eq_comm]

/-! ### C9: the kind of the edge being constructed -/

/-- The edge phase of a mouse move mutates nothing but `currentEdge`. -/
theorem mousemoveEdgePhase_only_currentEdge (q : ℚ → ℚ) (s : EditorState) (x y : ℚ) :
    ∃ ce, mousemoveEdgePhase q s x y = {s with currentEdge := ce} := by
  unfold mousemoveEdgePhase
  repeat' split
  all_goals first
    | exact ⟨s.currentEdge, rfl⟩
    | exact ⟨some _, rfl⟩

/-- Every rebuild performed by the edge phase produces a shape whose kind
is dictated by `lastKey`: SHIFT gives the undirected shapes, CTRL the
directed ones; with any other `lastKey` the pending edge is left alone. -/
theorem mousemoveEdgePhase_kind (q : ℚ → ℚ) (s : EditorState) (x y : ℚ) :
    (mousemoveEdgePhase q s x y).currentEdge = s.currentEdge ∨
      ∃ e, (mousemoveEdgePhase q s x y).currentEdge = some e ∧
        ((s.lastKey = some SHIFT ∧ curEdgeDirected e = false) ∨
         (s.lastKey = some CTRL ∧ curEdgeDirected e = true)) := by
  unfold mousemoveEdgePhase
  repeat' split
  all_goals first
    | (left; rfl)
    | (right; exact ⟨_, rfl, Or.inl ⟨by assumption, rfl⟩⟩)
    | (right; exact ⟨_, rfl, Or.inr ⟨by assumption, rfl⟩⟩)

/-- The move phase of a mouse move mutates nothing but the vertex
store. -/
theorem mousemoveMovePhase_only_vertices (s : EditorState) (x y : ℚ) :
    ∃ vs, mousemoveMovePhase s x y = {s with vertices := vs} := by
  unfold mousemoveMovePhase
  repeat' split
  all_goals first
    | exact ⟨s.vertices, rfl⟩
    | exact ⟨_, rfl⟩

theorem mousemoveMovePhase_lastKey (s : EditorState) (x y : ℚ) :
    (mousemoveMovePhase s x y).lastKey = s.lastKey := by
  obtain ⟨vs, hv⟩ := mousemoveMovePhase_only_vertices s x y
  rw [hv]

theorem mousemoveMovePhase_mouseDown (s : EditorState) (x y : ℚ) :
    (mousemoveMovePhase s x y).mouseDown = s.mouseDown := by
  obtain ⟨vs, hv⟩ := mousemoveMovePhase_only_vertices s x y
  rw [hv]

theorem mousemoveMovePhase_currentEdge (s : EditorState) (x y : ℚ) :
    (mousemoveMovePhase s x y).currentEdge = s.currentEdge := by
  obtain ⟨vs, hv⟩ := mousemoveMovePhase_only_vertices s x y
  rw [hv]

theorem mousemoveEdgePhase_lastKey (q : ℚ → ℚ) (s : EditorState) (x y : ℚ) :
    (mousemoveEdgePhase q s x y).lastKey = s.lastKey := by
  obtain ⟨ce, he⟩ := mousemoveEdgePhase_only_currentEdge q s x y
  rw [he]

theorem mousemoveEdgePhase_mouseDown (q : ℚ → ℚ) (s : EditorState) (x y : ℚ) :
    (mousemoveEdgePhase q s x y).mouseDown = s.mouseDown := by
  obtain ⟨ce, he⟩ := mousemoveEdgePhase_only_currentEdge q s x y
  rw [he]

theorem onmousemove_currentEdge (q : ℚ → ℚ) (measure : String → ℚ)
    (s : EditorState) (x y : ℚ) :
    (onmousemove q measure s x y).currentEdge = (mousemoveEdgePhase q s x y).currentEdge := by
  simp only [onmousemove]
  rw [mousemoveMovePhase_currentEdge]

theorem onmousemove_lastKey (q : ℚ → ℚ) (measure : String → ℚ)
    (s : EditorState) (x y : ℚ) :
    (onmousemove q measure s x y).lastKey = s.lastKey := by
  simp only [onmousemove]
  rw [mousemoveMovePhase_lastKey, mousemoveEdgePhase_lastKey]

theorem onmousemove_mouseDown (q : ℚ → ℚ) (measure : String → ℚ)
    (s : EditorState) (x y : ℚ) :
    (onmousemove q measure s x y).mouseDown = s.mouseDown := by
  simp only [onmousemove]
  rw [mousemoveMovePhase_mouseDown, mousemoveEdgePhase_mouseDown]

theorem onkeydown_lastKey_frozen (measure : String → ℚ) (s : EditorState) (k : ℕ)
    (hdown : s.mouseDown = true) :
    (onkeydown measure s k).lastKey = s.lastKey := by
  unfold onkeydown
  simp only [hdown, not_true_eq_false, if_false]
  repeat' split
  all_goals rfl

theorem onkeyup_lastKey (s : EditorState) (k : ℕ) :
    (onkeyup s k).lastKey = s.lastKey := by
  unfold onkeyup
  repeat' split
  all_goals rfl

/-- C9 (amended): while the mouse is pressed, `lastKey` is frozen — key
presses, key releases and mouse moves cannot change it, and a mouse move
keeps the mouse pressed — and every pending/candidate-edge rebuild on mouse
move produces a kind dictated by that frozen `lastKey` (SHIFT ↦ undirected,
CTRL ↦ directed).  Hence all rebuilds within one gesture share one kind.
The claim's stronger statement — that this kind always equals the kind the
gesture started with — fails: the initial shape is chosen from the
shift/ctrl flags with shift taking priority, which can disagree with
`lastKey` (see the counterexample). -/
theorem connect_kind_mid_gesture (q : ℚ → ℚ) (measure : String → ℚ)
    (s : EditorState) (x y : ℚ) (k : ℕ) (hdown : s.mouseDown = true) :
    (onkeydown measure s k).lastKey = s.lastKey ∧
    (onkeyup s k).lastKey = s.lastKey ∧
    (onmousemove q measure s x y).lastKey = s.lastKey ∧
    (onmousemove q measure s x y).mouseDown = s.mouseDown ∧
    ((onmousemove q measure s x y).currentEdge = s.currentEdge ∨
      ∃ e, (onmousemove q measure s x y).currentEdge = some e ∧
        ((s.lastKey = some SHIFT ∧ curEdgeDirected e = false) ∨
         (s.lastKey = some CTRL ∧ curEdgeDirected e = true))) :=
  ⟨onkeydown_lastKey_frozen measure s k hdown, onkeyup_lastKey s k,
    onmousemove_lastKey q measure s x y, onmousemove_mouseDown q measure s x y,
    (onmousemove_currentEdge q measure s x y) ▸ mousemoveEdgePhase_kind q s x y⟩


/-- An idle two-vertex store: vertices with ids 0 and 1 at (100,100) and
(300,100), no edges, nothing selected, no gesture in progress. -/
def stTwo : EditorState :=
  { vertices := [⟨100, 100, 30, 0, 0, "", 0⟩, ⟨300, 100, 30, 0, 0, "", 1⟩],
    edges := [], selectedObject := none, currentEdge := none,
    movingObject := false, lastKey := none, shift := false, ctrl := false,
    mouseDown := false, nextId := 2 }

/-- Pressing SHIFT then CTRL while idle: both flags set, `lastKey` ends at
CTRL. -/
theorem keydown_shift_ctrl :
    onkeydown (fun _ => 0) (onkeydown (fun _ => 0) stTwo SHIFT) CTRL =
      {stTwo with lastKey := some CTRL, shift := true, ctrl := true} := by
  rfl

/-- Hit-test facts for the concrete C9 scenario. -/
theorem vertexContains_c9_hit : vertexContains ⟨100, 100, 30, 0, 0, "", 0⟩ 100 100 = true := by
  simp only [vertexContains, decide_eq_true_eq]
  norm_num

theorem vertexContains_c9_miss0 : vertexContains ⟨100, 100, 30, 0, 0, "", 0⟩ 150 150 = false := by
  simp only [vertexContains, decide_eq_false_iff_not]
  norm_num

theorem vertexContains_c9_miss1 : vertexContains ⟨300, 100, 30, 0, 0, "", 1⟩ 150 150 = false := by
  simp only [vertexContains, decide_eq_false_iff_not]
  norm_num

/-- The state in the middle of a connect gesture begun with both SHIFT
and CTRL held (SHIFT pressed first): mouse pressed on the vertex at
(100,100). -/
def c9mid : EditorState :=
  onmousedown (fun _ => 0)
    (onkeydown (fun _ => 0) (onkeydown (fun _ => 0) stTwo SHIFT) CTRL) 100 100

theorem c9mid_eq :
    c9mid = {stTwo with
      lastKey := some CTRL
      shift := true
      ctrl := true
      selectedObject := some (.vtx 0)
      currentEdge := some (.tempEdge 0 ⟨100, 100⟩)
      mouseDown := true} := by
  rw [c9mid, keydown_shift_ctrl]
  simp only [onmousedown, selectObject]
  simp [stTwo, List.find?, vertexContains_c9_hit]

/-- C9 counterexample: press SHIFT, press CTRL (`lastKey` ends at CTRL),
then press the mouse on a vertex: `shift` has priority at mouse-down, so
the gesture starts with an *undirected* TempEdge; the first mouse move
rebuilds from `lastKey = CTRL`, producing a *directed* TempDirEdge.  The
kind changes mid-gesture with no intervening key or mouse-down event. -/
theorem connect_kind_counterexample :
    c9mid.currentEdge = some (.tempEdge 0 ⟨100, 100⟩) ∧
    (onmousemove (fun _ => 0) (fun _ => 0) c9mid 150 150).currentEdge =
      some (.tempDirEdge 0 ⟨150, 150⟩) ∧
    curEdgeDirected (.tempEdge 0 ⟨100, 100⟩) = false ∧
    curEdgeDirected (.tempDirEdge 0 ⟨150, 150⟩) = true := by
  refine ⟨by rw [c9mid_eq], ?_, rfl, rfl⟩
  rw [onmousemove_currentEdge, c9mid_eq]
  simp only [mousemoveEdgePhase, selectObject]
  simp [stTwo, List.find?, vertexContains_c9_miss0, vertexContains_c9_miss1, SHIFT, CTRL]

/-! ### C3: the markup exporter and the selection

`saveAsLaTeX` (grapher.js lines 722-731) clears `selectedObject`, runs
`drawWith` against a `LaTeXDrawer`, and restores the selection afterwards —
with no try/finally.  `drawWith` draws all vertices (recomputing their
radii; `LaTeXDrawer.measureText` delegates to the canvas context), then
draws each edge; `Edge.draw`/`DirEdge.draw` call `drawText` with a non-null
angle, and `LaTeXDrawer.advancedFillText` (lines 641-682) evaluates
`Math.cos(angleOrNull)` whenever its text survives `text.replace(' ', '')`
— but `angleOrNull` is not defined anywhere (the parameter is named
`angle`), so that call throws a ReferenceError.  The throw propagates out
of `saveAsLaTeX` before `selectedObject = old` runs. -/

/-- JS `text.replace(' ', '')` with a string pattern: only the first space
is removed. -/
def removeFirstSpace : List Char → List Char
  | [] => []
  | c :: rest => if c = ' ' then rest else c :: removeFirstSpace rest

/-- The guard of advancedFillText: the drawn text is non-blank. -/
def labelNonBlank (t : String) : Bool := decide (0 < (removeFirstSpace t.toList).length)

/-- Drawing edge `e` on the markup surface throws iff its displayed
(subscripted) label is non-blank: advancedFillText then reaches the
undefined identifier `angleOrNull` (grapher.js line 650). -/
def latexEdgeThrows (e : Edg) : Bool := labelNonBlank (makeSubscripts e.text)

/-- saveAsLaTeX (grapher.js lines 722-731).  The boolean is true when the
export ran to completion; on a throw, the state keeps the cleared
selection because there is no try/finally. -/
def saveAsLaTeX (measure : String → ℚ) (s : EditorState) : EditorState × Bool :=
  let old := s.selectedObject
  let s1 := {s with selectedObject := none}
  let s2 := {s1 with vertices := drawPass measure s1.vertices}
  if s2.edges.any latexEdgeThrows then (s2, false)
  else ({s2 with selectedObject := old}, true)

/-- A store with one labeled edge and a selected vertex. -/
def stC3 : EditorState :=
  {stTwo with
    edges := [⟨0, 1, false, "a", 2⟩]
    selectedObject := some (.vtx 0)
    nextId := 3}

/-- The same store with the edge label empty (no draw call throws). -/
def stC3unlabeled : EditorState :=
  {stC3 with edges := [⟨0, 1, false, "", 2⟩]}

/-- C3: evaluating the exporter at a failing input.  With a selected
vertex and one edge labeled "a", the markup export throws (the edge label
is non-blank, so advancedFillText reads the undefined `angleOrNull`) and
the selection is left cleared, not restored — against the claim.  With the
edge label empty nothing throws and the selection is restored. -/
theorem saveAsLaTeX_throw_loses_selection :
    stC3.selectedObject = some (.vtx 0) ∧
    (saveAsLaTeX (fun _ => 0) stC3).2 = false ∧
    (saveAsLaTeX (fun _ => 0) stC3).1.selectedObject = none ∧
    (saveAsLaTeX (fun _ => 0) stC3unlabeled).2 = true ∧
    (saveAsLaTeX (fun _ => 0) stC3unlabeled).1.selectedObject = some (.vtx 0) := by
  have hth : latexEdgeThrows ⟨0, 1, false, "a", 2⟩ = true := by decide
  have hnth : latexEdgeThrows ⟨0, 1, false, "", 2⟩ = false := by decide
  refine ⟨rfl, ?_, ?_, ?_, ?_⟩ <;> simp [saveAsLaTeX, hth, hnth, stC3unlabeled, stC3]

/-- A gesture state about to commit an undirected edge between vertices 0
and 1 of the empty-edge store. -/
def stC1 : EditorState := {stTwo with currentEdge := some (CurEdge.edge 0 1)}

/-- Witness for `connect_commit_unique`: committing 0-1 into the empty
store and then attempting the reversed commit 1-0 leaves exactly one edge
between the pair. -/
theorem connect_commit_unique_witness :
    pairCount 0 1 stC1.edges = 0 ∧
      pairCount 0 1
        (onmouseup {onmouseup stC1 with currentEdge := some (CurEdge.edge 1 0)}).edges = 1 :=
  ⟨rfl, (connect_commit_unique stC1 0 1 (Or.inl rfl)).2.2 rfl⟩

/-- A store with two labeled edges — one incident to vertex 0, one not —
and vertex 0 selected. -/
def stDel : EditorState :=
  {stTwo with
    edges := [⟨0, 1, false, "e", 2⟩, ⟨1, 1, true, "f", 3⟩]
    selectedObject := some (.vtx 0)
    nextId := 4}

/-- Witness for `delete_selected_vertex` at the concrete store `stDel` with
vertex 0 selected. -/
theorem delete_selected_vertex_witness :
    onkeydown (fun _ => 0) stDel DELETE = {stDel with
      lastKey := if stDel.mouseDown then stDel.lastKey else some DELETE
      vertices := drawPass (fun _ => 0) (stDel.vertices.filter (fun v => ! decide (0 = v.id)))
      edges := stDel.edges.filter (fun e => ! (decide (0 = e.v1) || decide (0 = e.v2)))
      selectedObject := none} :=
  delete_selected_vertex (fun _ => 0) stDel 0 rfl

/-- Witness for `backspace_trims_label` at the concrete store `stDel` with
vertex 0 selected. -/
theorem backspace_trims_label_witness :
    (onkeydown (fun _ => 0) stDel BACKSPACE = {stDel with
      lastKey := if stDel.mouseDown then stDel.lastKey else some BACKSPACE
      vertices := drawPass (fun _ => 0) (stDel.vertices.map (fun v =>
        if ObjRef.vtx 0 = ObjRef.vtx v.id then {v with text := backspaceText v.text} else v))
      edges := stDel.edges.map (fun e =>
        if ObjRef.vtx 0 = ObjRef.edg e.id then {e with text := backspaceText e.text} else e)}) ∧
    backspaceText "" = "" ∧
    (∀ (l : List Char) (c : Char), backspaceText ⟨l ++ [c]⟩ = ⟨l⟩) :=
  backspace_trims_label (fun _ => 0) stDel (ObjRef.vtx 0) rfl

/-- Witness for `connect_kind_mid_gesture` at the concrete mid-gesture
state `c9mid` (mouse pressed), with key 65 and mouse position (150,150). -/
theorem connect_kind_mid_gesture_witness :
    c9mid.mouseDown = true ∧
    ((onkeydown (fun _ => 0) c9mid 65).lastKey = c9mid.lastKey ∧
     (onkeyup c9mid 65).lastKey = c9mid.lastKey ∧
     (onmousemove (fun _ => 0) (fun _ => 0) c9mid 150 150).lastKey = c9mid.lastKey ∧
     (onmousemove (fun _ => 0) (fun _ => 0) c9mid 150 150).mouseDown = c9mid.mouseDown ∧
     ((onmousemove (fun _ => 0) (fun _ => 0) c9mid 150 150).currentEdge = c9mid.currentEdge ∨
       ∃ e, (onmousemove (fun _ => 0) (fun _ => 0) c9mid 150 150).currentEdge = some e ∧
         ((c9mid.lastKey = some SHIFT ∧ curEdgeDirected e = false) ∨
          (c9mid.lastKey = some CTRL ∧ curEdgeDirected e = true)))) :=
  ⟨rfl, connect_kind_mid_gesture (fun _ => 0) (fun _ => 0) c9mid 150 150 65 rfl⟩
